import Mathlib

/-!
Shallow embedding of the "Marker Board" single-page application
(`src/vite.config.js`, which bundles the Vite config and the React `App`
component).  The embedding models:

* the marker data (`Marker`), the client state held by `App`'s `useState`
  hooks (`AppState`),
* the derived computations of the countries/filter `useEffect`
  (`computeCountries`, `computeFiltered`),
* the realtime insert subscription handler (`onRemoteInsert`),
* the event handlers `handleMapClick` (split at its `await fetch`
  boundary into `handleMapClickSync` / `handleMapClickResume`),
  `handleSubmit`, and the Cancel button's `onClick`,
* the modal render condition `clickedPos && …` (`modalVisible`).

External calls (the reverse-geocode fetch, the Supabase insert) are
modelled by outcome parameters (`GeocodeOutcome`, `InsertOutcome`) fed to
the handler at its suspension point, and by an explicit list of emitted
`Effect`s (alerts, HTTP requests, remote writes, console errors).
-/

/-- A stored marker row, as held in the `markers` React state: rows come
from the Supabase `markers` table (select-all or the insert feed).  The
`country` column may be null/absent, hence `Option String`; coordinates
are carried opaquely as integers since the client never computes with
them. -/
structure Marker where
  id : Nat
  lat : Int
  lng : Int
  name : String
  message : String
  country : Option String
deriving DecidableEq, Repr

/-- The row sent by `handleSubmit` to `supabase.from('markers').insert`:
no `id` (assigned by the store) and a definite `country` string. -/
structure MarkerInsert where
  lat : Int
  lng : Int
  name : String
  message : String
  country : String
deriving DecidableEq, Repr

/-- Observable side effects emitted by the handlers. -/
inductive Effect where
  | alert (msg : String)
  | geocodeRequest (lat lng : Int)
  | remoteInsert (row : MarkerInsert)
  | logError (err : String)
deriving DecidableEq, Repr

/-- `true` exactly on the effects that issue an outbound request:
the reverse-geocode fetch and the remote write. -/
def Effect.issuesRequest : Effect → Bool
  | .geocodeRequest _ _ => true
  | .remoteInsert _ => true
  | _ => false

/-- The client state held by `App`'s `useState` hooks, plus the
session-storage flag `hasPlacedMark`.  `filteredMarkers` and `countries`
are derived from `markers`/`selectedCountry` by the `useEffect` and are
modelled by the pure functions `computeFiltered`/`computeCountries`. -/
structure AppState where
  markers : List Marker
  clickedPos : Option (Int × Int)
  country : String
  name : String
  message : String
  selectedCountry : String
  hasPlacedMark : Bool
deriving DecidableEq, Repr

/-- The modal render condition at `src/vite.config.js:206`:
`{clickedPos && ( …modal… )}` — the form is visible iff a clicked
position is recorded. -/
def modalVisible (st : AppState) : Bool :=
  st.clickedPos.isSome

/-- The filter `useEffect` (`src/vite.config.js:74-81`):
`let filtered = markers; if (selectedCountry !== 'all') filtered =
filtered.filter(m => m.country === selectedCountry)`. -/
def computeFiltered (markers : List Marker) (selectedCountry : String) : List Marker :=
  let filtered := markers
  if selectedCountry ≠ "all" then
    filtered.filter (fun m => decide (m.country = some selectedCountry))
  else
    filtered

/-- JS `Set.prototype.add` on an insertion-ordered set represented as a
duplicate-free list: append the element iff it is not yet present. -/
def jsSetAdd (acc : List String) (c : String) : List String :=
  if c ∈ acc then acc else acc ++ [c]

/-- `[...new Set(l)]` in JS: deduplicate keeping the first occurrence of
each element, in insertion order. -/
def jsSetOfList (l : List String) : List String :=
  l.foldl jsSetAdd []

/-- `markers.map(m => m.country).filter(Boolean)`: the sequence of
country values that are present and non-empty (the truthy ones), in
marker order. -/
def truthyCountries (markers : List Marker) : List String :=
  (markers.map (fun m => m.country)).filterMap
    (fun c => match c with
      | none => none
      | some s => if s = "" then none else some s)

/-- The countries `useEffect` (`src/vite.config.js:71`):
`[...new Set(markers.map(m => m.country).filter(Boolean))]`. -/
def computeCountries (markers : List Marker) : List String :=
  jsSetOfList (truthyCountries markers)

/-- The realtime subscription handler (`src/vite.config.js:57-59`):
`setMarkers(prev => [...prev, payload.new])`. -/
def onRemoteInsert (markers : List Marker) (payloadNew : Marker) : List Marker :=
  markers ++ [payloadNew]

/-- Delivering a sequence of insert events to the handler, in arrival
order. -/
def processInserts (markers : List Marker) (events : List Marker) : List Marker :=
  events.foldl onRemoteInsert markers

/-- The reverse-geocode response as consumed at
`data?.address?.country`: the object at `address`, when present. -/
structure GeoAddress where
  country : Option String
deriving DecidableEq, Repr

/-- Outcome of the reverse-geocode fetch: the request/JSON-parse threw
(`failure`), or it produced a response whose `address` field is `some`
or absent. -/
inductive GeocodeOutcome where
  | failure
  | success (address : Option GeoAddress)
deriving DecidableEq, Repr

/-- `data?.address?.country || 'Unknown'` with the surrounding
`try … catch { setCountry('Unknown') }` (`src/vite.config.js:94-102`).
JS `||` falls through to `'Unknown'` on any falsy left operand, so a
present-but-empty country string also yields `"Unknown"`. -/
def resolveCountry : GeocodeOutcome → String
  | .failure => "Unknown"
  | .success none => "Unknown"
  | .success (some a) =>
    match a.country with
    | none => "Unknown"
    | some c => if c = "" then "Unknown" else c

/-- The synchronous prefix of `handleMapClick`
(`src/vite.config.js:85-97`): check the session placement flag — if set,
alert and return; otherwise record the clicked coordinate and issue the
reverse-geocode request.  Everything here runs before the `await fetch`
suspends, i.e. before any geocode outcome exists. -/
def handleMapClickSync (st : AppState) (latlng : Int × Int) : AppState × List Effect :=
  if st.hasPlacedMark then
    (st, [Effect.alert "You already placed a mark in this session"])
  else
    ({ st with clickedPos := some latlng }, [Effect.geocodeRequest latlng.1 latlng.2])

/-- The continuation of `handleMapClick` after the fetch resolves or
throws (`src/vite.config.js:98-102`): set `country` from the outcome. -/
def handleMapClickResume (st : AppState) (geo : GeocodeOutcome) : AppState :=
  { st with country := resolveCountry geo }

/-- The whole `handleMapClick` run to completion, with the geocode
outcome supplied at the suspension point.  The resume step only happens
when the guard admitted the click (a refused click issues no fetch). -/
def handleMapClick (st : AppState) (latlng : Int × Int) (geo : GeocodeOutcome) :
    AppState × List Effect :=
  let r := handleMapClickSync st latlng
  if st.hasPlacedMark then r
  else (handleMapClickResume r.1 geo, r.2)

/-- Outcome of the Supabase insert: `error` null, or an error value. -/
inductive InsertOutcome where
  | ok
  | failure (err : String)
deriving DecidableEq, Repr

/-- `handleSubmit` (`src/vite.config.js:106-130`).  Returns `none` for
the state in which the JS code would throw (`clickedPos.lat` with
`clickedPos === null`); the modal (and hence the submit button) only
exists when `clickedPos` is set, so that state is unreachable from the
UI.  Empty `name` or `message` alerts and returns before the write; a
write failure logs, alerts and returns; a successful write sets the
session flag and clears `clickedPos`, `name` and `message`. -/
def handleSubmit (st : AppState) (outcome : InsertOutcome) :
    Option (AppState × List Effect) :=
  if st.name = "" ∨ st.message = "" then
    some (st, [Effect.alert "Name and message required"])
  else
    match st.clickedPos with
    | none => none
    | some pos =>
      let row : MarkerInsert :=
        { lat := pos.1, lng := pos.2, name := st.name,
          message := st.message, country := st.country }
      match outcome with
      | .failure err =>
        some (st, [Effect.remoteInsert row, Effect.logError err,
                   Effect.alert "Insert failed"])
      | .ok =>
        some ({ st with hasPlacedMark := true, clickedPos := none,
                        name := "", message := "" },
              [Effect.remoteInsert row])

/-- The Cancel button (`src/vite.config.js:286`):
`onClick={() => setClickedPos(null)}` — the only state change is
clearing the clicked position; no effect is emitted. -/
def handleCancel (st : AppState) : AppState × List Effect :=
  ({ st with clickedPos := none }, [])

/-- A user/feed event the component can process after some state. -/
inductive Event where
  | mapClick (latlng : Int × Int) (geo : GeocodeOutcome)
  | submit (outcome : InsertOutcome)
  | cancel
  | feedInsert (m : Marker)
  | setName (s : String)
  | setMessage (s : String)
  | selectCountry (s : String)
deriving Repr

/-- One step of the component: dispatch an event to its handler and keep
the resulting state (effects dropped; `submit` in the unreachable
no-position state leaves the state unchanged). -/
def step (st : AppState) (ev : Event) : AppState :=
  match ev with
  | .mapClick latlng geo => (handleMapClick st latlng geo).1
  | .submit outcome =>
    match handleSubmit st outcome with
    | some r => r.1
    | none => st
  | .cancel => (handleCancel st).1
  | .feedInsert m => { st with markers := onRemoteInsert st.markers m }
  | .setName s => { st with name := s }
  | .setMessage s => { st with message := s }
  | .selectCountry s => { st with selectedCountry := s }

/-- Run a sequence of events from a state. -/
def runEvents (st : AppState) (evs : List Event) : AppState :=
  evs.foldl step st

/-- An idle state: nothing clicked, empty form, flag unset. -/
def sampleIdle : AppState :=
  { markers := [], clickedPos := none, country := "", name := "",
    message := "", selectedCountry := "all", hasPlacedMark := false }

/-- A form-open state: a pending coordinate and filled form fields. -/
def sampleForm : AppState :=
  { markers := [], clickedPos := some (5, 6), country := "France",
    name := "Ann", message := "Hi", selectedCountry := "all",
    hasPlacedMark := false }

/-- The state `handleSubmit` leaves behind on a successful write, and
some sample data used by witnesses. -/
def sampleAfter : AppState :=
  { markers := [], clickedPos := none, country := "France", name := "",
    message := "", selectedCountry := "all", hasPlacedMark := true }

/-- The row `handleSubmit` sends for `sampleForm`. -/
def sampleRow : MarkerInsert :=
  { lat := 5, lng := 6, name := "Ann", message := "Hi", country := "France" }

/-- A sample event trace used by witnesses. -/
def sampleEvs : List Event :=
  [Event.cancel, Event.setName "Z",
   Event.feedInsert ⟨9, 1, 2, "N", "M", some "Spain"⟩]

/-- A sample marker list used by witnesses. -/
def sampleMarkers : List Marker :=
  [⟨1, 10, 20, "Ann", "Hi", some "France"⟩,
   ⟨2, 30, 40, "Bob", "Yo", none⟩,
   ⟨3, 50, 60, "Cid", "Hey", some "France"⟩,
   ⟨4, 0, 0, "Dee", "x", some ""⟩,
   ⟨5, 7, 8, "Eve", "y", some "Japan"⟩]

lemma handleSubmit_keeps_flag (st : AppState) (outcome : InsertOutcome)
    (r : AppState × List Effect) (h : st.hasPlacedMark = true)
    (hr : handleSubmit st outcome = some r) : r.1.hasPlacedMark = true := by
  unfold handleSubmit at hr
  by_cases hg : st.name = "" ∨ st.message = ""
  · rw [if_pos hg] at hr
    obtain rfl := Option.some.inj hr
    exact h
  · rw [if_neg hg] at hr
    cases hp : st.clickedPos with
    | none => rw [hp] at hr; cases hr
    | some pos =>
      rw [hp] at hr
      cases outcome with
      | failure err =>
        obtain rfl := Option.some.inj hr
        exact h
      | ok =>
        obtain rfl := Option.some.inj hr
        rfl

lemma step_keeps_flag (st : AppState) (ev : Event)
    (h : st.hasPlacedMark = true) : (step st ev).hasPlacedMark = true := by
  cases ev with
  | mapClick latlng geo =>
    simp [step, handleMapClick, handleMapClickSync, handleMapClickResume, h]
  | submit outcome =>
    simp only [step]
    rcases hs : handleSubmit st outcome with _ | r
    · simpa using h
    · simpa using handleSubmit_keeps_flag st outcome r h hs
  | cancel => simpa [step, handleCancel] using h
  | feedInsert m => simpa [step] using h
  | setName s => simpa [step] using h
  | setMessage s => simpa [step] using h
  | selectCountry s => simpa [step] using h

lemma runEvents_keeps_flag (evs : List Event) (st : AppState)
    (h : st.hasPlacedMark = true) : (runEvents st evs).hasPlacedMark = true := by
  induction evs generalizing st with
  | nil => simpa [runEvents] using h
  | cons e es ih =>
    simp only [runEvents, List.foldl_cons]
    exact ih (step st e) (step_keeps_flag st e h)

lemma processInserts_eq (events prev : List Marker) :
    processInserts prev events = prev ++ events := by
  induction events generalizing prev with
  | nil => simp [processInserts]
  | cons e es ih =>
    simp only [processInserts, List.foldl_cons] at *
    rw [ih (onRemoteInsert prev e)]
    simp [onRemoteInsert]

/-- C1: for every marker list `M` and filter selection `s`, the visible
marker list equals `M` when `s = "all"` and equals the order-preserving
sublist of markers with `country = s` otherwise; in particular it is
always a sublist of the marker store. -/
theorem visible_markers_spec (M : List Marker) (s : String) :
    (s = "all" → computeFiltered M s = M) ∧
    (s ≠ "all" →
      computeFiltered M s = M.filter (fun m => decide (m.country = some s))) ∧
    List.Sublist (computeFiltered M s) M := by
  refine ⟨fun h => by simp [computeFiltered, h], fun h => by simp [computeFiltered, h], ?_⟩
  by_cases h : s = "all"
  · simp [computeFiltered, h]
  · simp only [computeFiltered, if_pos h]
    exact List.filter_sublist M

/-- C1 witness: instantiated at `sampleMarkers` and selection
`"France"`. -/
theorem visible_markers_spec_witness :
    ("France" = "all" → computeFiltered sampleMarkers "France" = sampleMarkers) ∧
    ("France" ≠ "all" →
      computeFiltered sampleMarkers "France" =
        sampleMarkers.filter (fun m => decide (m.country = some "France"))) ∧
    List.Sublist (computeFiltered sampleMarkers "France") sampleMarkers :=
  visible_markers_spec sampleMarkers "France"

/-- C3: submitting with empty `name` or empty `message` alerts
"Name and message required", emits no remote write, and returns with the
state (flag, pending coordinate, form fields) entirely unchanged. -/
theorem submit_empty_fields_rejected (st : AppState) (outcome : InsertOutcome)
    (h : st.name = "" ∨ st.message = "") :
    handleSubmit st outcome = some (st, [Effect.alert "Name and message required"]) := by
  unfold handleSubmit
  rw [if_pos h]

/-- C3 witness: the idle state has an empty name. -/
theorem submit_empty_fields_rejected_witness :
    handleSubmit sampleIdle InsertOutcome.ok =
      some (sampleIdle, [Effect.alert "Name and message required"]) :=
  submit_empty_fields_rejected sampleIdle InsertOutcome.ok (Or.inl rfl)

/-- C4: a failed remote write logs the error and alerts "Insert failed",
and returns with the state unchanged: the placement flag keeps its value,
the pending coordinate and the fields `name`, `message`, `country` are
intact, and the modal is still open (the flow stays in FormOpen). -/
theorem submit_write_failure_preserves_state (st : AppState) (pos : Int × Int)
    (err : String) (hpos : st.clickedPos = some pos)
    (hn : st.name ≠ "") (hm : st.message ≠ "") :
    handleSubmit st (InsertOutcome.failure err) =
      some (st, [Effect.remoteInsert
                   { lat := pos.1, lng := pos.2, name := st.name,
                     message := st.message, country := st.country },
                 Effect.logError err, Effect.alert "Insert failed"]) ∧
    modalVisible st = true := by
  constructor
  · simp [handleSubmit, hpos, hn, hm]
  · simp [modalVisible, hpos]

/-- C4 witness: a failed write on the sample form state. -/
theorem submit_write_failure_preserves_state_witness :
    handleSubmit sampleForm (InsertOutcome.failure "boom") =
      some (sampleForm, [Effect.remoteInsert sampleRow,
                         Effect.logError "boom", Effect.alert "Insert failed"]) ∧
    modalVisible sampleForm = true :=
  submit_write_failure_preserves_state sampleForm (5, 6) "boom" rfl
    (by decide) (by decide)

/-- C5: a successful remote write sets the session placement flag,
clears the form fields `name` and `message`, and discards the pending
coordinate, so the modal closes and the flow returns to Idle. -/
theorem submit_write_success_state (st : AppState) (pos : Int × Int)
    (hpos : st.clickedPos = some pos) (hn : st.name ≠ "") (hm : st.message ≠ "") :
    handleSubmit st InsertOutcome.ok =
      some ({ st with hasPlacedMark := true, clickedPos := none,
                      name := "", message := "" },
            [Effect.remoteInsert
               { lat := pos.1, lng := pos.2, name := st.name,
                 message := st.message, country := st.country }]) ∧
    modalVisible { st with hasPlacedMark := true, clickedPos := none,
                           name := "", message := "" } = false := by
  constructor
  · simp [handleSubmit, hpos, hn, hm]
  · simp [modalVisible]

/-- C5 witness: a successful write on the sample form state. -/
theorem submit_write_success_state_witness :
    handleSubmit sampleForm InsertOutcome.ok =
      some (sampleAfter, [Effect.remoteInsert sampleRow]) ∧
    modalVisible sampleAfter = false :=
  submit_write_success_state sampleForm (5, 6) rfl (by decide) (by decide)

/-- C2: once a submit has succeeded (non-empty fields, a pending
coordinate, write ok), the resulting state has the placement flag set;
the flag survives any further event trace; and a map click in any such
later state is refused with exactly the alert
"You already placed a mark in this session" and emits no geocode request
and no remote write. -/
theorem submit_success_blocks_later_clicks (st : AppState) (pos : Int × Int)
    (evs : List Event) (latlng : Int × Int) (geo : GeocodeOutcome)
    (hpos : st.clickedPos = some pos) (hn : st.name ≠ "") (hm : st.message ≠ "") :
    ∀ r, handleSubmit st InsertOutcome.ok = some r →
      r.1.hasPlacedMark = true ∧
      (runEvents r.1 evs).hasPlacedMark = true ∧
      handleMapClick (runEvents r.1 evs) latlng geo =
        (runEvents r.1 evs,
         [Effect.alert "You already placed a mark in this session"]) ∧
      (handleMapClick (runEvents r.1 evs) latlng geo).2.all
        (fun f => !f.issuesRequest) = true := by
  have hs : handleSubmit st InsertOutcome.ok =
      some ({ st with hasPlacedMark := true, clickedPos := none,
                      name := "", message := "" },
            [Effect.remoteInsert
               { lat := pos.1, lng := pos.2, name := st.name,
                 message := st.message, country := st.country }]) := by
    simp [handleSubmit, hpos, hn, hm]
  intro r hr
  rw [hs] at hr
  obtain rfl := Option.some.inj hr
  have hflag : ({ st with hasPlacedMark := true, clickedPos := none,
                          name := "", message := "" } : AppState).hasPlacedMark = true := rfl
  have hrun := runEvents_keeps_flag evs _ hflag
  refine ⟨rfl, hrun, ?_, ?_⟩
  · simp [handleMapClick, handleMapClickSync, hrun]
  · simp [handleMapClick, handleMapClickSync, hrun, Effect.issuesRequest]

/-- C2 witness: submit from the sample form state, then a trace of
cancel/edit/feed events, then a refused click. -/
theorem submit_success_blocks_later_clicks_witness :
    sampleAfter.hasPlacedMark = true ∧
    (runEvents sampleAfter sampleEvs).hasPlacedMark = true ∧
    handleMapClick (runEvents sampleAfter sampleEvs) (7, 8) GeocodeOutcome.failure =
      (runEvents sampleAfter sampleEvs,
       [Effect.alert "You already placed a mark in this session"]) ∧
    (handleMapClick (runEvents sampleAfter sampleEvs) (7, 8)
        GeocodeOutcome.failure).2.all (fun f => !f.issuesRequest) = true :=
  submit_success_blocks_later_clicks sampleForm (5, 6) sampleEvs (7, 8)
    GeocodeOutcome.failure rfl (by decide) (by decide)
    (sampleAfter, [Effect.remoteInsert sampleRow]) (by decide)

/-- C10: the realtime insert handler appends unconditionally: delivering
any event sequence grows the local list by exactly one entry per event,
in arrival order, with no deduplication — the multiplicity of every
marker (in particular of two events carrying the same id) adds up. -/
theorem feed_inserts_append_unconditionally (prev events : List Marker) :
    processInserts prev events = prev ++ events ∧
    (processInserts prev events).length = prev.length + events.length ∧
    ∀ m : Marker, (processInserts prev events).count m =
      prev.count m + events.count m := by
  refine ⟨processInserts_eq events prev, ?_, ?_⟩
  · rw [processInserts_eq]; exact List.length_append prev events
  · intro m; rw [processInserts_eq]; exact List.count_append m prev events

/-- C10 witness: the same marker delivered twice produces two entries. -/
theorem feed_inserts_append_unconditionally_witness :
    processInserts sampleMarkers [⟨6, 1, 1, "F", "m", none⟩, ⟨6, 1, 1, "F", "m", none⟩] =
      sampleMarkers ++ [⟨6, 1, 1, "F", "m", none⟩, ⟨6, 1, 1, "F", "m", none⟩] ∧
    (processInserts sampleMarkers
        [⟨6, 1, 1, "F", "m", none⟩, ⟨6, 1, 1, "F", "m", none⟩]).length =
      sampleMarkers.length + 2 ∧
    ∀ m : Marker, (processInserts sampleMarkers
        [⟨6, 1, 1, "F", "m", none⟩, ⟨6, 1, 1, "F", "m", none⟩]).count m =
      sampleMarkers.count m +
        ([⟨6, 1, 1, "F", "m", none⟩, ⟨6, 1, 1, "F", "m", none⟩] : List Marker).count m :=
  feed_inserts_append_unconditionally sampleMarkers
    [⟨6, 1, 1, "F", "m", none⟩, ⟨6, 1, 1, "F", "m", none⟩]

/-- C6 counterexample: a geocode response that succeeds with the path
`address.country` present but holding the empty string.  The claim says
a successful lookup sets `country` to the value at that path (here `""`),
but `data?.address?.country || 'Unknown'` treats the falsy `""` like an
absent value, so the code sets `"Unknown"` instead. -/
theorem geocode_empty_string_country_counterexample :
    (handleMapClick sampleIdle (10, 20)
        (GeocodeOutcome.success (some { country := some "" }))).1.country = "Unknown" ∧
    ¬ (handleMapClick sampleIdle (10, 20)
        (GeocodeOutcome.success (some { country := some "" }))).1.country = "" := by
  constructor
  · rfl
  · decide

/-- C6 (amended): for a click admitted by the guard, a successful lookup
whose `address.country` is a non-empty string sets `country` to that
string; a failed request, an absent `address`, an absent `country` field,
or an empty-string `country` all set `country` to `"Unknown"`; in every
case the clicked coordinate is recorded and the form opens. -/
theorem geocode_sets_country (st : AppState) (latlng : Int × Int)
    (geo : GeocodeOutcome) (h : st.hasPlacedMark = false) :
    (geo = GeocodeOutcome.failure →
      (handleMapClick st latlng geo).1.country = "Unknown") ∧
    (geo = GeocodeOutcome.success none →
      (handleMapClick st latlng geo).1.country = "Unknown") ∧
    (∀ a, geo = GeocodeOutcome.success (some a) → a.country = none →
      (handleMapClick st latlng geo).1.country = "Unknown") ∧
    (∀ a, geo = GeocodeOutcome.success (some a) → a.country = some "" →
      (handleMapClick st latlng geo).1.country = "Unknown") ∧
    (∀ a s, geo = GeocodeOutcome.success (some a) → a.country = some s → s ≠ "" →
      (handleMapClick st latlng geo).1.country = s) ∧
    (handleMapClick st latlng geo).1.clickedPos = some latlng ∧
    modalVisible (handleMapClick st latlng geo).1 = true := by
  refine ⟨?_, ?_, ?_, ?_, ?_, ?_, ?_⟩
  · rintro rfl
    simp [handleMapClick, handleMapClickSync, handleMapClickResume, resolveCountry, h]
  · rintro rfl
    simp [handleMapClick, handleMapClickSync, handleMapClickResume, resolveCountry, h]
  · rintro a rfl ha
    simp [handleMapClick, handleMapClickSync, handleMapClickResume, resolveCountry, h, ha]
  · rintro a rfl ha
    simp [handleMapClick, handleMapClickSync, handleMapClickResume, resolveCountry, h, ha]
  · rintro a s rfl ha hs
    simp [handleMapClick, handleMapClickSync, handleMapClickResume, resolveCountry, h, ha, hs]
  · simp [handleMapClick, handleMapClickSync, handleMapClickResume, h]
  · simp [handleMapClick, handleMapClickSync, handleMapClickResume, modalVisible, h]

/-- C6 witness: a successful lookup resolving the non-empty country
"Wakanda" on an idle state. -/
theorem geocode_sets_country_witness :
    (GeocodeOutcome.success (some { country := some "Wakanda" }) = GeocodeOutcome.failure →
      (handleMapClick sampleIdle (10, 20)
        (GeocodeOutcome.success (some { country := some "Wakanda" }))).1.country = "Unknown") ∧
    (GeocodeOutcome.success (some { country := some "Wakanda" }) =
        GeocodeOutcome.success none →
      (handleMapClick sampleIdle (10, 20)
        (GeocodeOutcome.success (some { country := some "Wakanda" }))).1.country = "Unknown") ∧
    (∀ a, GeocodeOutcome.success (some { country := some "Wakanda" }) =
        GeocodeOutcome.success (some a) → a.country = none →
      (handleMapClick sampleIdle (10, 20)
        (GeocodeOutcome.success (some { country := some "Wakanda" }))).1.country = "Unknown") ∧
    (∀ a, GeocodeOutcome.success (some { country := some "Wakanda" }) =
        GeocodeOutcome.success (some a) → a.country = some "" →
      (handleMapClick sampleIdle (10, 20)
        (GeocodeOutcome.success (some { country := some "Wakanda" }))).1.country = "Unknown") ∧
    (∀ a s, GeocodeOutcome.success (some { country := some "Wakanda" }) =
        GeocodeOutcome.success (some a) → a.country = some s → s ≠ "" →
      (handleMapClick sampleIdle (10, 20)
        (GeocodeOutcome.success (some { country := some "Wakanda" }))).1.country = s) ∧
    (handleMapClick sampleIdle (10, 20)
      (GeocodeOutcome.success (some { country := some "Wakanda" }))).1.clickedPos =
        some (10, 20) ∧
    modalVisible (handleMapClick sampleIdle (10, 20)
      (GeocodeOutcome.success (some { country := some "Wakanda" }))).1 = true :=
  geocode_sets_country sampleIdle (10, 20)
    (GeocodeOutcome.success (some { country := some "Wakanda" })) rfl

/-- C7 counterexample: after only the synchronous prefix of the click
handler has run — the geocode request has been issued but no outcome has
arrived yet — the clicked coordinate is already recorded and the modal
render condition `clickedPos && …` already holds.  The form is therefore
open while the geocode lookup is still pending, contradicting the claim
that FormOpen is reached only after the lookup resolves or fails. -/
theorem form_open_while_geocode_pending_counterexample :
    modalVisible (handleMapClickSync sampleIdle (10, 20)).1 = true ∧
    (handleMapClickSync sampleIdle (10, 20)).1.clickedPos = some (10, 20) ∧
    (handleMapClickSync sampleIdle (10, 20)).2 = [Effect.geocodeRequest 10 20] := by
  refine ⟨rfl, rfl, rfl⟩

/-- C7 (amended): a click admitted by the guard synchronously records
the clicked coordinate and thereby immediately opens the form (before
the geocode outcome exists), issuing exactly one geocode request; when
the lookup later resolves or fails, the resume step only sets `country`
and the form stays open with the same coordinate. -/
theorem click_opens_form_before_geocode (st : AppState) (latlng : Int × Int)
    (h : st.hasPlacedMark = false) :
    (handleMapClickSync st latlng).1.clickedPos = some latlng ∧
    modalVisible (handleMapClickSync st latlng).1 = true ∧
    (handleMapClickSync st latlng).2 = [Effect.geocodeRequest latlng.1 latlng.2] ∧
    ∀ geo : GeocodeOutcome,
      (handleMapClickResume (handleMapClickSync st latlng).1 geo).country =
        resolveCountry geo ∧
      (handleMapClickResume (handleMapClickSync st latlng).1 geo).clickedPos =
        some latlng ∧
      modalVisible (handleMapClickResume (handleMapClickSync st latlng).1 geo) = true ∧
      handleMapClick st latlng geo =
        (handleMapClickResume (handleMapClickSync st latlng).1 geo,
         (handleMapClickSync st latlng).2) := by
  refine ⟨?_, ?_, ?_, ?_⟩
  · simp [handleMapClickSync, h]
  · simp [handleMapClickSync, modalVisible, h]
  · simp [handleMapClickSync, h]
  · intro geo
    refine ⟨rfl, ?_, ?_, ?_⟩
    · simp [handleMapClickSync, handleMapClickResume, h]
    · simp [handleMapClickSync, handleMapClickResume, modalVisible, h]
    · simp [handleMapClick, h]

/-- C7 witness: a click at (10, 20) on the idle state. -/
theorem click_opens_form_before_geocode_witness :
    (handleMapClickSync sampleIdle (10, 20)).1.clickedPos = some (10, 20) ∧
    modalVisible (handleMapClickSync sampleIdle (10, 20)).1 = true ∧
    (handleMapClickSync sampleIdle (10, 20)).2 =
      [Effect.geocodeRequest (10, 20).1 (10, 20).2] ∧
    ∀ geo : GeocodeOutcome,
      (handleMapClickResume (handleMapClickSync sampleIdle (10, 20)).1 geo).country =
        resolveCountry geo ∧
      (handleMapClickResume (handleMapClickSync sampleIdle (10, 20)).1 geo).clickedPos =
        some (10, 20) ∧
      modalVisible (handleMapClickResume
        (handleMapClickSync sampleIdle (10, 20)).1 geo) = true ∧
      handleMapClick sampleIdle (10, 20) geo =
        (handleMapClickResume (handleMapClickSync sampleIdle (10, 20)).1 geo,
         (handleMapClickSync sampleIdle (10, 20)).2) :=
  click_opens_form_before_geocode sampleIdle (10, 20) rfl

/-- C8 counterexample: cancelling the sample form state (name "Ann",
message "Hi", country "France") leaves all three field values in place —
the Cancel handler is only `setClickedPos(null)` — so the claim that
cancel discards the form fields is false. -/
theorem cancel_keeps_field_values_counterexample :
    (handleCancel sampleForm).1.name = "Ann" ∧
    (handleCancel sampleForm).1.message = "Hi" ∧
    (handleCancel sampleForm).1.country = "France" ∧
    ¬ ((handleCancel sampleForm).1.name = "" ∧
       (handleCancel sampleForm).1.message = "") := by
  refine ⟨rfl, rfl, rfl, ?_⟩
  decide

/-- C8 (amended): from any form-open state, cancel discards only the
pending coordinate — closing the modal and returning the flow to Idle —
while the field values `name`, `message`, `country`, the marker store
and the placement flag are all left unchanged, and no effect (no write,
no alert) is emitted. -/
theorem cancel_discards_only_coordinate (st : AppState) (pos : Int × Int)
    (_hpos : st.clickedPos = some pos) :
    handleCancel st = ({ st with clickedPos := none }, []) ∧
    (handleCancel st).1.name = st.name ∧
    (handleCancel st).1.message = st.message ∧
    (handleCancel st).1.country = st.country ∧
    (handleCancel st).1.markers = st.markers ∧
    (handleCancel st).1.hasPlacedMark = st.hasPlacedMark ∧
    modalVisible (handleCancel st).1 = false := by
  refine ⟨rfl, rfl, rfl, rfl, rfl, rfl, ?_⟩
  simp [handleCancel, modalVisible]

/-- C8 witness: cancelling the sample form state. -/
theorem cancel_discards_only_coordinate_witness :
    handleCancel sampleForm = ({ sampleForm with clickedPos := none }, []) ∧
    (handleCancel sampleForm).1.name = sampleForm.name ∧
    (handleCancel sampleForm).1.message = sampleForm.message ∧
    (handleCancel sampleForm).1.country = sampleForm.country ∧
    (handleCancel sampleForm).1.markers = sampleForm.markers ∧
    (handleCancel sampleForm).1.hasPlacedMark = sampleForm.hasPlacedMark ∧
    modalVisible (handleCancel sampleForm).1 = false :=
  cancel_discards_only_coordinate sampleForm (5, 6) rfl

/-- Index of the first occurrence of `a` in `l` (or `l.length` when `a`
is absent). -/
def firstIdx (a : String) : List String → Nat
  | [] => 0
  | b :: l => if a = b then 0 else firstIdx a l + 1

/-- Reference form of first-occurrence deduplication: keep the head and
drop its later duplicates, recursively. -/
def firstSeen : List String → List String
  | [] => []
  | c :: rest => c :: firstSeen (rest.filter (fun x => decide (x ≠ c)))
termination_by l => l.length
decreasing_by
  simp only [List.length_cons]
  exact Nat.lt_succ_of_le (List.length_filter_le _ _)

lemma mem_firstSeen (x : String) : ∀ l : List String, x ∈ firstSeen l ↔ x ∈ l := by
  intro l
  induction l using firstSeen.induct with
  | case1 => rw [firstSeen]
  | case2 c rest ih =>
    rw [firstSeen]
    simp only [List.mem_cons, ih]
    constructor
    · rintro (rfl | hx)
      · exact Or.inl rfl
      · exact Or.inr (List.mem_filter.mp hx).1
    · rintro (rfl | hx)
      · exact Or.inl rfl
      · by_cases hxc : x = c
        · exact Or.inl hxc
        · exact Or.inr (List.mem_filter.mpr ⟨hx, by simpa using hxc⟩)

lemma nodup_firstSeen : ∀ l : List String, (firstSeen l).Nodup := by
  intro l
  induction l using firstSeen.induct with
  | case1 => rw [firstSeen]; exact List.Pairwise.nil
  | case2 c rest ih =>
    rw [firstSeen]
    refine List.nodup_cons.mpr ⟨?_, ih⟩
    intro hc
    have hmem := (mem_firstSeen c _).mp hc
    have := (List.mem_filter.mp hmem).2
    simp at this

lemma firstIdx_cons_self (a : String) (l : List String) :
    firstIdx a (a :: l) = 0 := by
  simp [firstIdx]

lemma firstIdx_cons_ne (a b : String) (l : List String) (h : a ≠ b) :
    firstIdx a (b :: l) = firstIdx a l + 1 := by
  simp [firstIdx, h]

lemma firstIdx_filter_lt (p : String → Bool) :
    ∀ (l : List String) (a b : String), a ∈ l.filter p → b ∈ l.filter p →
      firstIdx a (l.filter p) < firstIdx b (l.filter p) →
      firstIdx a l < firstIdx b l := by
  intro l
  induction l with
  | nil => intro a b ha _ _; simp at ha
  | cons x t ih =>
    intro a b ha hb hlt
    by_cases hpx : p x = true
    · rw [List.filter_cons_of_pos hpx] at ha hb hlt
      by_cases hax : a = x
      · subst hax
        rw [firstIdx_cons_self] at hlt ⊢
        have hba : b ≠ a := by
          intro hba
          subst hba
          rw [firstIdx_cons_self] at hlt
          exact Nat.lt_irrefl 0 hlt
        rw [firstIdx_cons_ne b a t hba]
        exact Nat.succ_pos _
      · rw [firstIdx_cons_ne a x _ hax] at hlt
        have hbx : b ≠ x := by
          intro hbx
          subst hbx
          rw [firstIdx_cons_self] at hlt
          exact Nat.not_succ_le_zero _ hlt
        rw [firstIdx_cons_ne b x _ hbx] at hlt
        have ha' : a ∈ t.filter p := by
          rcases List.mem_cons.mp ha with h | h
          · exact absurd h hax
          · exact h
        have hb' : b ∈ t.filter p := by
          rcases List.mem_cons.mp hb with h | h
          · exact absurd h hbx
          · exact h
        rw [firstIdx_cons_ne a x t hax, firstIdx_cons_ne b x t hbx]
        exact Nat.succ_lt_succ (ih a b ha' hb' (Nat.lt_of_succ_lt_succ hlt))
    · rw [List.filter_cons_of_neg (by simpa using hpx)] at ha hb hlt
      have hax : a ≠ x := by
        intro h
        subst h
        exact hpx (List.mem_filter.mp ha).2
      have hbx : b ≠ x := by
        intro h
        subst h
        exact hpx (List.mem_filter.mp hb).2
      rw [firstIdx_cons_ne a x t hax, firstIdx_cons_ne b x t hbx]
      exact Nat.succ_lt_succ (ih a b ha hb hlt)

lemma pairwise_firstIdx_firstSeen :
    ∀ l : List String,
      (firstSeen l).Pairwise (fun a b => firstIdx a l < firstIdx b l) := by
  intro l
  induction l using firstSeen.induct with
  | case1 => rw [firstSeen]; exact List.Pairwise.nil
  | case2 c rest ih =>
    rw [firstSeen]
    refine List.pairwise_cons.mpr ⟨?_, ?_⟩
    · intro b hb
      have hbmem := (mem_firstSeen b _).mp hb
      have hbc : b ≠ c := by
        have := (List.mem_filter.mp hbmem).2
        simpa using this
      rw [firstIdx_cons_self, firstIdx_cons_ne b c rest hbc]
      exact Nat.succ_pos _
    · refine ih.imp_of_mem ?_
      intro a b hamem hbmem hab
      have ha' := (mem_firstSeen a _).mp hamem
      have hb' := (mem_firstSeen b _).mp hbmem
      have hac : a ≠ c := by
        have := (List.mem_filter.mp ha').2
        simpa using this
      have hbc : b ≠ c := by
        have := (List.mem_filter.mp hb').2
        simpa using this
      rw [firstIdx_cons_ne a c rest hac, firstIdx_cons_ne b c rest hbc]
      exact Nat.succ_lt_succ
        (firstIdx_filter_lt (fun x => decide (x ≠ c)) rest a b ha' hb' hab)

lemma foldl_jsSetAdd_eq :
    ∀ (l acc : List String),
      l.foldl jsSetAdd acc = acc ++ firstSeen (l.filter (fun x => decide (x ∉ acc))) := by
  intro l
  induction l with
  | nil => intro acc; simp [firstSeen]
  | cons c rest ih =>
    intro acc
    rw [List.foldl_cons]
    by_cases hc : c ∈ acc
    · rw [show jsSetAdd acc c = acc from if_pos hc, ih acc, List.filter_cons]
      simp [hc]
    · rw [show jsSetAdd acc c = acc ++ [c] from if_neg hc, ih (acc ++ [c]),
        List.filter_cons]
      have hdc : decide (c ∉ acc) = true := by simpa using hc
      rw [if_pos hdc, firstSeen, List.append_assoc]
      have hfil : rest.filter (fun x => decide (x ∉ acc ++ [c])) =
          (rest.filter (fun x => decide (x ∉ acc))).filter
            (fun x => decide (x ≠ c)) := by
        rw [List.filter_filter]
        apply List.filter_congr
        intro x _
        by_cases h1 : x ∈ acc <;> by_cases h2 : x = c <;> simp [h1, h2]
      rw [hfil]
      rfl

lemma jsSetOfList_eq_firstSeen (l : List String) : jsSetOfList l = firstSeen l := by
  rw [jsSetOfList, foldl_jsSetAdd_eq l [], List.nil_append]
  congr 1
  have : ∀ x ∈ l, (fun x : String => decide (x ∉ ([] : List String))) x = true := by
    intro x _
    simp
  calc l.filter (fun x : String => decide (x ∉ ([] : List String)))
      = l.filter (fun _ => true) := List.filter_congr (by intro x hx; simp)
    _ = l := List.filter_true l

lemma mem_truthyCountries (M : List Marker) (c : String) :
    c ∈ truthyCountries M ↔
      (some c ∈ M.map (fun m => m.country) ∧ c ≠ "") := by
  unfold truthyCountries
  rw [List.mem_filterMap]
  constructor
  · rintro ⟨a, ha, hfa⟩
    cases a with
    | none => simp at hfa
    | some s =>
      by_cases hs : s = ""
      · rw [hs] at hfa
        simp at hfa
      · simp only [if_neg hs, Option.some.injEq] at hfa
        subst hfa
        exact ⟨ha, hs⟩
  · rintro ⟨ha, hc⟩
    exact ⟨some c, ha, by simp [hc]⟩

/-- C9: the derived distinct-countries list contains no empty value (and
every element is a country actually present on some marker, so no
undefined values), has no duplicates, and is ordered by the first
occurrence of each country in the markers' truthy country sequence. -/
theorem countries_distinct_first_seen (M : List Marker) :
    "" ∉ computeCountries M ∧
    (computeCountries M).Nodup ∧
    (∀ c, c ∈ computeCountries M ↔
      (some c ∈ M.map (fun m => m.country) ∧ c ≠ "")) ∧
    (computeCountries M).Pairwise
      (fun a b => firstIdx a (truthyCountries M) < firstIdx b (truthyCountries M)) := by
  have hmm : ∀ c, c ∈ computeCountries M ↔ c ∈ truthyCountries M := by
    intro c
    rw [computeCountries, jsSetOfList_eq_firstSeen, mem_firstSeen]
  refine ⟨?_, ?_, ?_, ?_⟩
  · intro h
    rcases (mem_truthyCountries M "").mp ((hmm "").mp h) with ⟨_, h2⟩
    exact h2 rfl
  · rw [computeCountries, jsSetOfList_eq_firstSeen]
    exact nodup_firstSeen _
  · intro c
    rw [hmm c]
    exact mem_truthyCountries M c
  · rw [computeCountries, jsSetOfList_eq_firstSeen]
    exact pairwise_firstIdx_firstSeen _

/-- C9 witness: instantiated at `sampleMarkers`, whose countries include
a duplicate ("France" twice), an absent value and an empty string. -/
theorem countries_distinct_first_seen_witness :
    "" ∉ computeCountries sampleMarkers ∧
    (computeCountries sampleMarkers).Nodup ∧
    (∀ c, c ∈ computeCountries sampleMarkers ↔
      (some c ∈ sampleMarkers.map (fun m => m.country) ∧ c ≠ "")) ∧
    (computeCountries sampleMarkers).Pairwise
      (fun a b => firstIdx a (truthyCountries sampleMarkers) <
        firstIdx b (truthyCountries sampleMarkers)) :=
  countries_distinct_first_seen sampleMarkers
